import Mathlib

/-!
# Verification of the chat conversation/message subsystem

Shallow embedding of the conversation model (`conversationSchema`, statics
`findOrCreateDirectConversation`, `createGroupConversation`, `addParticipants`,
`removeParticipant`, `updateLastMessage`, `markAsRead`, `updateMentionsCount`)
and of the message model (`messageSchema`, statics `markAsRead`,
`markAsDelivered`, `updateStatus`, plus the socket-level `message:delete`
handler, which is the only caller-reachable delete path).

Conventions of the embedding:
* Mongo `ObjectId`s are `Nat`.
* Timestamps (`new Date()`) are passed in explicitly as a `now : Nat`
  parameter (milliseconds), since wall-clock time is an input of the code.
* Mongoose `Map` fields are association lists `List (Nat × _)` with
  `Map.get`/`Map.set` semantics (`ucGet`/`ucSet`).
* `await model.save()` is modelled by the pre-save hook (`preSave`), which is
  the only observable effect of saving besides persistence itself; fields the
  verified claims never touch (drafts, participantSettings, customFields,
  invite links, media, reactions, polls, …) are omitted from the record types.
* Functions that `throw new Error(...)` return `Except ε _` with one error
  constructor per distinct `throw` site; each constructor's doc comment quotes
  the thrown message.
-/

/-- Participant permission flags (`participants.permissions` subdocument). -/
structure Permissions where
  canSendMessages : Bool
  canSendMedia : Bool
  canAddMembers : Bool
  canRemoveMembers : Bool
  canEditGroupInfo : Bool
  canPinMessages : Bool
deriving Repr, DecidableEq

/-- Participant role, `enum: ["admin", "member", "moderator"]`. -/
inductive Role where
  | admin
  | member
  | moderator
deriving Repr, DecidableEq

/-- One entry of the `participants` array of a conversation document. -/
structure Participant where
  user : Nat
  role : Role
  isActive : Bool
  joinedAt : Nat
  leftAt : Option Nat
  permissions : Permissions
deriving Repr, DecidableEq

/-- One value of the `unreadCounts` map:
`{count, mentionsCount, lastReadMessageId, lastReadAt}`. -/
structure UnreadEntry where
  count : Nat
  mentionsCount : Nat
  lastReadMessageId : Option Nat
  lastReadAt : Option Nat
deriving Repr, DecidableEq

/-- The default value an absent `unreadCounts` entry is read as
(`{ count: 0, mentionsCount: 0, lastReadMessageId: null, lastReadAt: null }`). -/
def UnreadEntry.zero : UnreadEntry :=
  { count := 0, mentionsCount := 0, lastReadMessageId := none, lastReadAt := none }

/-- Conversation `type`, `enum: ["direct", "group", "broadcast", "channel", "individual"]`. -/
inductive ConvType where
  | direct
  | group
  | broadcast
  | channel
  | individual
deriving Repr, DecidableEq

/-- Conversation `privacy`, `enum: ["public", "private", "secret"]`. -/
inductive Privacy where
  | «public»
  | «private»
  | secret
deriving Repr, DecidableEq

/-- The `stats` subdocument (fields the claims touch). -/
structure Stats where
  totalMessages : Nat
  totalParticipants : Nat
  lastActivity : Nat
deriving Repr, DecidableEq

/-- A conversation document (fields relevant to the verified operations). -/
structure Conversation where
  id : Nat
  participants : List Participant
  type : ConvType
  name : String
  privacy : Privacy
  lastMessage : Option Nat
  lastMessageAt : Nat
  unreadCounts : List (Nat × UnreadEntry)
  stats : Stats
  isDeleted : Bool
deriving Repr, DecidableEq

/-- `Map.prototype.get` on an `unreadCounts`-shaped map. -/
def ucGet (m : List (Nat × UnreadEntry)) (k : Nat) : Option UnreadEntry :=
  (m.find? (fun e => e.1 == k)).map (fun e => e.2)

/-- `Map.prototype.set` on an `unreadCounts`-shaped map: overwrite the binding
if the key is present, otherwise append it. -/
def ucSet (m : List (Nat × UnreadEntry)) (k : Nat) (v : UnreadEntry) :
    List (Nat × UnreadEntry) :=
  match m with
  | [] => [(k, v)]
  | e :: es => if e.1 == k then (k, v) :: es else e :: ucSet es k v

@[simp] theorem ucGet_nil (k : Nat) : ucGet [] k = none := rfl

@[simp] theorem ucGet_cons (e : Nat × UnreadEntry) (m : List (Nat × UnreadEntry)) (k : Nat) :
    ucGet (e :: m) k = if e.1 == k then some e.2 else ucGet m k := by
  simp only [ucGet, List.find?]
  cases h : (e.1 == k) <;> simp [h]

@[simp] theorem ucGet_set_self (m : List (Nat × UnreadEntry)) (k : Nat) (v : UnreadEntry) :
    ucGet (ucSet m k v) k = some v := by
  induction m with
  | nil => simp [ucSet]
  | cons e es ih =>
    simp only [ucSet]
    by_cases h : e.1 = k
    · simp [h]
    · simp [h, ih]

theorem ucGet_set_ne (m : List (Nat × UnreadEntry)) (k k' : Nat) (v : UnreadEntry)
    (h : k ≠ k') : ucGet (ucSet m k v) k' = ucGet m k' := by
  induction m with
  | nil => simp [ucSet, h]
  | cons e es ih =>
    simp only [ucSet]
    by_cases he : e.1 = k
    · simp [he, h, ucGet_cons]
    · simp [he, ucGet_cons, ih]

theorem ucSet_set_self (m : List (Nat × UnreadEntry)) (k : Nat) (v v' : UnreadEntry) :
    ucSet (ucSet m k v) k v' = ucSet m k v' := by
  induction m with
  | nil => simp [ucSet]
  | cons e es ih =>
    simp only [ucSet]
    by_cases he : e.1 = k
    · simp [he, ucSet]
    · simp [he, ucSet, ih]

/-- `conversationSchema.methods.getUnreadCount`:
`unreadData ? unreadData.count : 0`. -/
def Conversation.getUnreadCount (c : Conversation) (userId : Nat) : Nat :=
  match ucGet c.unreadCounts userId with
  | some unreadData => unreadData.count
  | none => 0

/-- `conversationSchema.methods.getMentionsCount`:
`unreadData ? unreadData.mentionsCount : 0`. -/
def Conversation.getMentionsCount (c : Conversation) (userId : Nat) : Nat :=
  match ucGet c.unreadCounts userId with
  | some unreadData => unreadData.mentionsCount
  | none => 0

/-- `conversationSchema.methods.isParticipant`: some active participant entry
has this user id. -/
def Conversation.isParticipant (c : Conversation) (userId : Nat) : Bool :=
  c.participants.any (fun p => p.user == userId && p.isActive)

/-- `conversationSchema.methods.isAdmin`: some active participant entry has
this user id with role `admin`. -/
def Conversation.isAdmin (c : Conversation) (userId : Nat) : Bool :=
  c.participants.any (fun p => p.user == userId && p.role == Role.admin && p.isActive)

/-- `conversationSchema.methods.initializeUnreadCounts`: for each id, set the
zero entry unless a (valid) entry is already present. In the embedding an
existing entry is always a well-typed `UnreadEntry`, so the
`typeof current !== "object"` re-initialization branch never fires. -/
def Conversation.initializeUnreadCounts (c : Conversation) (participantIds : List Nat) :
    Conversation :=
  { c with
    unreadCounts := participantIds.foldl (fun m userId =>
      match ucGet m userId with
      | some _ => m
      | none => ucSet m userId UnreadEntry.zero) c.unreadCounts }

/-- The `pre("save")` hook: recompute `stats.totalParticipants` as the number
of active participants and bump `stats.lastActivity`. (The invite-link branch
only fires for `group`-typed documents with no code yet and touches no field
any claim mentions; it is omitted.) -/
def preSave (c : Conversation) (now : Nat) : Conversation :=
  { c with
    stats := { c.stats with
      totalParticipants := (c.participants.filter (fun p => p.isActive)).length
      lastActivity := now } }

/-- The durable store of conversation documents: the list of saved documents
plus the next fresh document id. -/
structure ConvStore where
  convs : List Conversation
  nextId : Nat
deriving Repr, DecidableEq

/-- `Model.findById` : first (unique) document with the given id. -/
def ConvStore.findById (s : ConvStore) (conversationId : Nat) : Option Conversation :=
  s.convs.find? (fun c => c.id == conversationId)

/-- `conversation.save()` on an existing document: replace the stored document
that has the same id (and run the pre-save hook). -/
def ConvStore.save (s : ConvStore) (c : Conversation) (now : Nat) : ConvStore :=
  { s with convs := s.convs.map (fun d => if d.id == c.id then preSave c now else d) }

/-- `Model.create` / first `save()` of a new document: run the pre-save hook,
append the document, and advance the fresh-id counter. -/
def ConvStore.insert (s : ConvStore) (c : Conversation) (now : Nat) : ConvStore :=
  { convs := s.convs ++ [preSave c now], nextId := s.nextId + 1 }

/-- The sorted participant pair: `const sortedIds = [...validParticipants].sort()`
specialized to the two-element array the function requires. -/
def sortedPair (a b : Nat) : List Nat :=
  if a ≤ b then [a, b] else [b, a]

/-- The Mongo query of `findOrCreateDirectConversation`:
`{ type: "individual", "participants.user": { $all: sortedIds },
   "participants.isActive": true, isDeleted: false }`.
`$all` requires every id to occur among the participant users; the plain
`"participants.isActive": true` clause matches when SOME array element has
`isActive: true` (Mongo array-field semantics). -/
def directQueryMatches (sortedIds : List Nat) (c : Conversation) : Bool :=
  c.type == ConvType.individual &&
  sortedIds.all (fun i => c.participants.any (fun p => p.user == i)) &&
  c.participants.any (fun p => p.isActive) &&
  !c.isDeleted

/-- A participant entry as built by `findOrCreateDirectConversation` (role
`member`, active, default direct-conversation permissions). -/
def mkDirectParticipant (now userId : Nat) : Participant :=
  { user := userId
    role := Role.member
    isActive := true
    joinedAt := now
    leftAt := none
    permissions :=
      { canSendMessages := true
        canSendMedia := true
        canAddMembers := false
        canRemoveMembers := false
        canEditGroupInfo := false
        canPinMessages := false } }

/-- The document literal `new this({participants, type: "individual",
privacy: "private", unreadCounts: new Map(), ..., stats: {...}})` built by
`findOrCreateDirectConversation` when no conversation matches the query. -/
def mkDirectConversation (id : Nat) (sortedIds : List Nat) (now : Nat) : Conversation :=
  { id := id
    participants := sortedIds.map (mkDirectParticipant now)
    type := ConvType.individual
    name := ""
    privacy := Privacy.private
    lastMessage := none
    lastMessageAt := now
    unreadCounts := []
    stats := { totalMessages := 0, totalParticipants := 2, lastActivity := now }
    isDeleted := false }

/-- `conversationSchema.statics.findOrCreateDirectConversation(participantIds)`,
specialized to its required two-element argument `[a, b]` (both ids valid by
construction, so the length/ObjectId validations pass). It sorts the pair,
looks the query up with `findOne` (first match), and if absent creates the
document, initializes both unread counters and saves. The source's final
`findById` refetch returns the just-saved document, which is what the
embedding returns directly. -/
def ConvStore.findOrCreateDirectConversation (s : ConvStore) (a b : Nat) (now : Nat) :
    Conversation × ConvStore :=
  let sortedIds := sortedPair a b
  match s.convs.find? (directQueryMatches sortedIds) with
  | some conversation => (conversation, s)
  | none =>
    let conversation := (mkDirectConversation s.nextId sortedIds now).initializeUnreadCounts
      sortedIds
    (preSave conversation now, s.insert conversation now)

/-- Errors of `createGroupConversation`; each constructor corresponds to one
`throw` site (or the schema validation run by `this.create`). -/
inductive CreateGroupError where
  /-- "Group conversations must have at least 2 participants" -/
  | atLeastTwoParticipants
  /-- "Admin must be a participant" -/
  | adminMustBeParticipant
  /-- Mongoose `ValidationError`: `name` is `required` for `group`-typed
  documents and the default String `required` check rejects empty strings. -/
  | nameRequired
deriving Repr, DecidableEq

/-- A participant entry as built by `createGroupConversation`: the admin gets
role `admin` and every management permission, all others are members. -/
def mkGroupParticipant (now adminId userId : Nat) : Participant :=
  { user := userId
    role := if userId == adminId then Role.admin else Role.member
    isActive := true
    joinedAt := now
    leftAt := none
    permissions :=
      { canSendMessages := true
        canSendMedia := true
        canAddMembers := userId == adminId
        canRemoveMembers := userId == adminId
        canEditGroupInfo := userId == adminId
        canPinMessages := userId == adminId } }

/-- The document created by `createGroupConversation` via `this.create({
participants, type: "group", name, description, photo, privacy, ...})` (with
the default `privacy = "public"`). -/
def mkGroupConversation (id : Nat) (participantIds : List Nat) (name : String)
    (adminId now : Nat) : Conversation :=
  { id := id
    participants := participantIds.map (mkGroupParticipant now adminId)
    type := ConvType.group
    name := name
    privacy := Privacy.public
    lastMessage := none
    lastMessageAt := now
    unreadCounts := []
    stats := { totalMessages := 0, totalParticipants := 0, lastActivity := now }
    isDeleted := false }

/-- `conversationSchema.statics.createGroupConversation({participantIds, name,
adminId, ...})` (with default `description`/`photo`/`privacy = "public"`):
requires `participantIds.length ≥ 2` and `adminId ∈ participantIds`, then
`this.create` (schema validation: non-empty `name`), then
`initializeUnreadCounts(participantIds)` and `save()`; the final `findById`
refetch returns the saved document. -/
def ConvStore.createGroupConversation (s : ConvStore) (participantIds : List Nat)
    (name : String) (adminId : Nat) (now : Nat) :
    Except CreateGroupError (Conversation × ConvStore) :=
  if participantIds.length < 2 then
    Except.error CreateGroupError.atLeastTwoParticipants
  else if !(participantIds.contains adminId) then
    Except.error CreateGroupError.adminMustBeParticipant
  else if name == "" then
    Except.error CreateGroupError.nameRequired
  else
    let conversation := (mkGroupConversation s.nextId participantIds name adminId
      now).initializeUnreadCounts participantIds
    Except.ok (preSave conversation now, s.insert conversation now)

/-- Errors of `addParticipants`; each constructor corresponds to one `throw`. -/
inductive AddParticipantsError where
  /-- "Conversation not found" -/
  | conversationNotFound
  /-- "Cannot add participants to direct conversations" -/
  | cannotAddToDirect
  /-- "You do not have permission to add participants" -/
  | noPermissionToAdd
deriving Repr, DecidableEq

/-- A participant entry as built by `addParticipants` (role `member`, default
permissions). -/
def mkAddedParticipant (now userId : Nat) : Participant :=
  { user := userId
    role := Role.member
    isActive := true
    joinedAt := now
    leftAt := none
    permissions :=
      { canSendMessages := true
        canSendMedia := true
        canAddMembers := false
        canRemoveMembers := false
        canEditGroupInfo := false
        canPinMessages := false } }

/-- `conversationSchema.statics.addParticipants(conversationId, participantIds,
addedBy)`: `findById`; reject absent conversations and `type === "direct"`
ones; unless the actor is an (active) admin, the actor's participant entry
(active or not) must carry `canAddMembers`; ids already active are filtered
out (if none remain the conversation is returned unchanged, without saving);
the rest are pushed as members, their unread counters initialized, and the
document saved (the `findById` refetch returns the saved document). -/
def ConvStore.addParticipants (s : ConvStore) (conversationId : Nat)
    (participantIds : List Nat) (addedBy : Nat) (now : Nat) :
    Except AddParticipantsError (Conversation × ConvStore) :=
  match s.findById conversationId with
  | none => Except.error AddParticipantsError.conversationNotFound
  | some conversation =>
    if conversation.type == ConvType.direct then
      Except.error AddParticipantsError.cannotAddToDirect
    else if !conversation.isAdmin addedBy &&
        !((conversation.participants.find? (fun p => p.user == addedBy)).elim
            false (fun p => p.permissions.canAddMembers)) then
      Except.error AddParticipantsError.noPermissionToAdd
    else
      let existingParticipantIds :=
        (conversation.participants.filter (fun p => p.isActive)).map (fun p => p.user)
      let newParticipantIds :=
        participantIds.filter (fun i => !(existingParticipantIds.contains i))
      if newParticipantIds.isEmpty then
        Except.ok (conversation, s)
      else
        let conversation :=
          { conversation with
            participants :=
              conversation.participants ++ newParticipantIds.map (mkAddedParticipant now) }
        let conversation := conversation.initializeUnreadCounts newParticipantIds
        Except.ok (preSave conversation now, s.save conversation now)

/-- Errors of `removeParticipant`; each constructor corresponds to one `throw`. -/
inductive RemoveParticipantError where
  /-- "Conversation not found" -/
  | conversationNotFound
  /-- "Cannot remove participants from direct conversations" -/
  | cannotRemoveFromDirect
  /-- "You do not have permission to remove participants" -/
  | noPermissionToRemove
  /-- "Participant not found" -/
  | participantNotFound
deriving Repr, DecidableEq

/-- Deactivate the first participant entry with the given user id (JS `find`
returns the first matching element, which is then mutated in place). -/
def deactivateFirst (ps : List Participant) (userId now : Nat) : List Participant :=
  match ps with
  | [] => []
  | p :: rest =>
    if p.user == userId then
      { p with isActive := false, leftAt := some now } :: rest
    else
      p :: deactivateFirst rest userId now

/-- `conversationSchema.statics.removeParticipant(conversationId,
participantId, removedBy)`: `findById`; reject absent conversations and
`type === "direct"` ones; unless the removal is a self-leave
(`removedBy === participantId`) or the actor is an active admin, the actor's
participant entry must carry `canRemoveMembers`; the target's (first)
participant entry is deactivated (`isActive = false`, `leftAt` recorded) and
the document saved. No admin transfer and no conversation deletion happens. -/
def ConvStore.removeParticipant (s : ConvStore) (conversationId : Nat)
    (participantId : Nat) (removedBy : Nat) (now : Nat) :
    Except RemoveParticipantError (Conversation × ConvStore) :=
  match s.findById conversationId with
  | none => Except.error RemoveParticipantError.conversationNotFound
  | some conversation =>
    if conversation.type == ConvType.direct then
      Except.error RemoveParticipantError.cannotRemoveFromDirect
    else if removedBy != participantId && !conversation.isAdmin removedBy &&
        !((conversation.participants.find? (fun p => p.user == removedBy)).elim
            false (fun p => p.permissions.canRemoveMembers)) then
      Except.error RemoveParticipantError.noPermissionToRemove
    else if !(conversation.participants.any (fun p => p.user == participantId)) then
      Except.error RemoveParticipantError.participantNotFound
    else
      let conversation :=
        { conversation with
          participants := deactivateFirst conversation.participants participantId now }
      Except.ok (preSave conversation now, s.save conversation now)

/-- The "conversation not found" error shared by `updateLastMessage`,
`markAsRead` and `updateMentionsCount` (each throws
"Conversation not found" when `findById` misses). -/
inductive ConvLookupError where
  /-- "Conversation not found" -/
  | conversationNotFound
deriving Repr, DecidableEq

/-- The mutation performed by `conversationSchema.statics.updateLastMessage`
on the fetched document: for every ACTIVE participant other than the sender,
increment `unreadCounts[user].count` (reading an absent entry as the zero
default); then set `lastMessage`, `lastMessageAt` and bump
`stats.totalMessages`. -/
def Conversation.updateLastMessage (c : Conversation) (messageId senderId now : Nat) :
    Conversation :=
  let unreadCounts := c.participants.foldl (fun m participant =>
    if participant.user != senderId && participant.isActive then
      let current := (ucGet m participant.user).getD UnreadEntry.zero
      ucSet m participant.user { current with count := current.count + 1 }
    else m) c.unreadCounts
  { c with
    unreadCounts := unreadCounts
    lastMessage := some messageId
    lastMessageAt := now
    stats := { c.stats with totalMessages := c.stats.totalMessages + 1 } }

/-- `conversationSchema.statics.updateLastMessage(conversationId, messageId,
senderId)`: `findById`, apply `Conversation.updateLastMessage`, `save()`, and
return the (saved) document. -/
def ConvStore.updateLastMessage (s : ConvStore) (conversationId messageId senderId now : Nat) :
    Except ConvLookupError (Conversation × ConvStore) :=
  match s.findById conversationId with
  | none => Except.error ConvLookupError.conversationNotFound
  | some conversation =>
    let conversation := conversation.updateLastMessage messageId senderId now
    Except.ok (preSave conversation now, s.save conversation now)

/-- The mutation performed by `conversationSchema.statics.markAsRead` on the
fetched document: overwrite `unreadCounts[userId]` with
`{ count: 0, mentionsCount: 0,
   lastReadMessageId: lastReadMessageId || conversation.lastMessage,
   lastReadAt: new Date() }`. -/
def Conversation.markAsRead (c : Conversation) (userId : Nat)
    (lastReadMessageId : Option Nat) (now : Nat) : Conversation :=
  { c with
    unreadCounts := ucSet c.unreadCounts userId
      { count := 0
        mentionsCount := 0
        lastReadMessageId :=
          match lastReadMessageId with
          | some m => some m
          | none => c.lastMessage
        lastReadAt := some now } }

/-- `conversationSchema.statics.markAsRead(conversationId, userId,
lastReadMessageId = null)`: `findById`, apply `Conversation.markAsRead`,
`save()`, and return the (saved) document. -/
def ConvStore.markAsRead (s : ConvStore) (conversationId userId : Nat)
    (lastReadMessageId : Option Nat) (now : Nat) :
    Except ConvLookupError (Conversation × ConvStore) :=
  match s.findById conversationId with
  | none => Except.error ConvLookupError.conversationNotFound
  | some conversation =>
    let conversation := conversation.markAsRead userId lastReadMessageId now
    Except.ok (preSave conversation now, s.save conversation now)

/-- Errors of `updateMentionsCount`. -/
inductive MentionsError where
  /-- "Conversation not found" -/
  | conversationNotFound
  /-- `ReferenceError: userId is not defined` — the participant check
  `if (!conversation.isParticipant(userId))` reads the identifier `userId`,
  which is bound nowhere in the enclosing scope (the function's parameters are
  `conversationId` and `mentionedUserIds`; `userId` is only a parameter of the
  `forEach` callback FURTHER DOWN). The file is an ES module, hence strict
  mode, so evaluating the unbound identifier throws before the loop runs. -/
  | referenceErrorUserId
deriving Repr, DecidableEq

/-- `conversationSchema.statics.updateMentionsCount(conversationId,
mentionedUserIds)`: `findById` (throwing "Conversation not found" on a miss),
then the line `if (!conversation.isParticipant(userId))` throws a
`ReferenceError` (see `MentionsError.referenceErrorUserId`) before any
`mentionsCount` increment and before any `save()`, so the stored conversation
is never modified. The `mentionedUserIds.forEach` increment loop below that
line is unreachable. -/
def ConvStore.updateMentionsCount (s : ConvStore) (conversationId : Nat)
    (mentionedUserIds : List Nat) : Except MentionsError (Conversation × ConvStore) :=
  match s.findById conversationId with
  | none => Except.error MentionsError.conversationNotFound
  | some _ => Except.error MentionsError.referenceErrorUserId

/-- Message `status`, `enum: ["sending", "sent", "delivered", "read", "failed"]`. -/
inductive MsgStatus where
  | sending
  | sent
  | delivered
  | read
  | failed
deriving Repr, DecidableEq

/-- The forward order of the status state machine claimed by the spec
(`sending < sent < delivered < read`; `failed` is terminal from `sending`).
Used only to STATE monotonicity; the code never consults such an order. -/
def MsgStatus.rank : MsgStatus → Nat
  | MsgStatus.sending => 0
  | MsgStatus.sent => 1
  | MsgStatus.delivered => 2
  | MsgStatus.read => 3
  | MsgStatus.failed => 1

/-- One entry of `readBy`: `{user, readAt}`. -/
structure ReadReceipt where
  user : Nat
  readAt : Nat
deriving Repr, DecidableEq

/-- One entry of `deliveredTo`: `{user, deliveredAt}`. -/
structure DeliveredReceipt where
  user : Nat
  deliveredAt : Nat
deriving Repr, DecidableEq

/-- A message document (fields relevant to the verified operations). -/
structure Message where
  id : Nat
  conversation : Nat
  sender : Nat
  content : String
  createdAt : Nat
  status : MsgStatus
  readBy : List ReadReceipt
  deliveredTo : List DeliveredReceipt
  isDeleted : Bool
  deletedFor : List Nat
  deletedAt : Option Nat
  deletedBy : Option Nat
deriving Repr, DecidableEq

/-- `messageSchema.statics.markAsRead(messageId, userId)`, mutation on the
fetched document: push `{user, readAt: now}` onto `readBy` unless some entry
for this user is already there. -/
def Message.markAsRead (m : Message) (userId now : Nat) : Message :=
  if m.readBy.any (fun r => r.user == userId) then m
  else { m with readBy := m.readBy ++ [{ user := userId, readAt := now }] }

/-- `messageSchema.statics.markAsDelivered(messageId, userId)`, mutation on
the fetched document: push `{user, deliveredAt: now}` onto `deliveredTo`
unless some entry for this user is already there. -/
def Message.markAsDelivered (m : Message) (userId now : Nat) : Message :=
  if m.deliveredTo.any (fun d => d.user == userId) then m
  else { m with deliveredTo := m.deliveredTo ++ [{ user := userId, deliveredAt := now }] }

/-- `messageSchema.statics.updateStatus(messageId, status, userId)`, mutation
on the fetched document. The `status` argument is always a member of the enum
here, so the `includes` validity check passes. The scalar `status` field is
assigned UNCONDITIONALLY (`message.status = status;` — no comparison with the
current value). Then, `if (status === "delivered" || status === "read")` the
user is idempotently appended to `deliveredTo`; the
`else if (status === "read")` branch that would append to `readBy` is dead
code (unreachable, since `"read"` already took the first branch) and is kept
here verbatim. -/
def Message.updateStatus (m : Message) (status : MsgStatus) (userId now : Nat) : Message :=
  let m := { m with status := status }
  if status == MsgStatus.delivered || status == MsgStatus.read then
    if m.deliveredTo.any (fun d => d.user == userId) then m
    else { m with deliveredTo := m.deliveredTo ++ [{ user := userId, deliveredAt := now }] }
  else if status == MsgStatus.read then
    if m.readBy.any (fun r => r.user == userId) then m
    else { m with readBy := m.readBy ++ [{ user := userId, readAt := now }] }
  else m

/-- Number of `deliveredTo` entries recorded for a user. -/
def Message.deliveredCount (m : Message) (userId : Nat) : Nat :=
  (m.deliveredTo.filter (fun d => d.user == userId)).length

/-- Number of `readBy` entries recorded for a user. -/
def Message.readCount (m : Message) (userId : Nat) : Nat :=
  (m.readBy.filter (fun r => r.user == userId)).length

/-- Outcomes of the socket `message:delete` handler; each constructor is one
`socket.emit("message:error", ...)` site. -/
inductive DeleteMessageError where
  /-- "Message not found" -/
  | messageNotFound
  /-- "You can only delete your own messages" -/
  | notSender
  /-- "Messages can only be deleted for everyone within 10 minutes" -/
  | expired
deriving Repr, DecidableEq

/-- The `deleteFor` field of the `message:delete` event: `'me' | 'everyone'`. -/
inductive DeleteScope where
  | me
  | everyone
deriving Repr, DecidableEq

/-- `timeLimit = 10 * 60 * 1000` (milliseconds). -/
def deleteForEveryoneTimeLimit : Nat := 10 * 60 * 1000

/-- The socket-level `message:delete` handler (the only caller-reachable
delete path; the `messageSchema.statics.deleteMessage` static has no callers
and lacks the time-window check). Logic: fetch the message; reject non-senders
for BOTH scopes; for `deleteFor = "everyone"`, reject when
`Date.now() - message.createdAt > timeLimit`, else set
`isDeleted`/`deletedAt`/`deletedBy`; for `deleteFor = "me"`, apply
`$addToSet: { deletedFor: userId }` (append only if absent). `now` is
`Date.now()`; `now - createdAt` is natural subtraction, which agrees with the
JS `>`-comparison also when the clock reads below `createdAt` (a negative age
and a zero age both fail the `> timeLimit` test). -/
def handleMessageDelete (msgs : List Message) (messageId userId : Nat)
    (deleteFor : DeleteScope) (now : Nat) : Except DeleteMessageError Message :=
  match msgs.find? (fun m => m.id == messageId) with
  | none => Except.error DeleteMessageError.messageNotFound
  | some message =>
    if message.sender != userId then
      Except.error DeleteMessageError.notSender
    else
      match deleteFor with
      | DeleteScope.everyone =>
        let messageAge := now - message.createdAt
        if messageAge > deleteForEveryoneTimeLimit then
          Except.error DeleteMessageError.expired
        else
          Except.ok { message with
            isDeleted := true
            deletedAt := some now
            deletedBy := some userId }
      | DeleteScope.me =>
        Except.ok { message with
          deletedFor :=
            if message.deletedFor.contains userId then message.deletedFor
            else message.deletedFor ++ [userId] }

/-! ## Helper lemmas -/

theorem find?_append_of_none {α : Type} (p : α → Bool) (l₁ l₂ : List α)
    (h : l₁.find? p = none) : (l₁ ++ l₂).find? p = l₂.find? p := by
  induction l₁ with
  | nil => simp
  | cons x xs ih =>
    simp only [List.find?] at h ⊢
    cases hp : p x with
    | true => simp [hp] at h
    | false =>
      simp only [hp] at h ⊢
      exact ih h

theorem sortedPair_comm (a b : Nat) : sortedPair a b = sortedPair b a := by
  unfold sortedPair
  by_cases h1 : a ≤ b <;> by_cases h2 : b ≤ a <;> simp [h1, h2]
  · omega
  · omega

theorem sortedPair_cases (a b : Nat) : sortedPair a b = [a, b] ∨ sortedPair a b = [b, a] := by
  unfold sortedPair
  split <;> simp

theorem findOrCreateDirect_eq_found (s : ConvStore) (a b now : Nat) (c : Conversation)
    (h : s.convs.find? (directQueryMatches (sortedPair a b)) = some c) :
    s.findOrCreateDirectConversation a b now = (c, s) := by
  unfold ConvStore.findOrCreateDirectConversation
  simp only [h]

theorem findOrCreateDirect_eq_created (s : ConvStore) (a b now : Nat)
    (h : s.convs.find? (directQueryMatches (sortedPair a b)) = none) :
    s.findOrCreateDirectConversation a b now =
      (preSave ((mkDirectConversation s.nextId (sortedPair a b) now).initializeUnreadCounts
        (sortedPair a b)) now,
       s.insert ((mkDirectConversation s.nextId (sortedPair a b) now).initializeUnreadCounts
        (sortedPair a b)) now) := by
  unfold ConvStore.findOrCreateDirectConversation
  simp only [h]

theorem created_direct_matches (id x y now : Nat) :
    directQueryMatches [x, y]
      (preSave ((mkDirectConversation id [x, y] now).initializeUnreadCounts [x, y]) now)
      = true := by
  simp [directQueryMatches, preSave, Conversation.initializeUnreadCounts,
    mkDirectConversation, mkDirectParticipant]

theorem created_direct_unread (id x y now : Nat) :
    ucGet (preSave ((mkDirectConversation id [x, y] now).initializeUnreadCounts [x, y])
        now).unreadCounts x = some UnreadEntry.zero ∧
    ucGet (preSave ((mkDirectConversation id [x, y] now).initializeUnreadCounts [x, y])
        now).unreadCounts y = some UnreadEntry.zero := by
  by_cases hxy : x = y <;>
    simp [preSave, Conversation.initializeUnreadCounts, mkDirectConversation, ucSet, hxy,
      List.foldl]

theorem created_direct_users (id : Nat) (l : List Nat) (now : Nat) :
    ((preSave ((mkDirectConversation id l now).initializeUnreadCounts l)
        now).participants.map (fun p => p.user)) = l := by
  show (l.map (mkDirectParticipant now)).map (fun p => p.user) = l
  induction l with
  | nil => rfl
  | cons u us ih => simp only [List.map_cons, mkDirectParticipant, ih]

theorem created_direct_active (id : Nat) (l : List Nat) (now : Nat) :
    ∀ p ∈ (preSave ((mkDirectConversation id l now).initializeUnreadCounts l)
        now).participants, p.isActive = true := by
  show ∀ p ∈ l.map (mkDirectParticipant now), p.isActive = true
  intro p hp
  rcases List.mem_map.mp hp with ⟨u, _, rfl⟩
  rfl

/-- C1: `findOrCreateDirectConversation` is order-independent in its pair and
idempotent: the `(a, b)` and `(b, a)` calls return the same result; a repeat
call (in either order, at any later time `now'`) on the resulting store
returns the very same conversation and leaves the store unchanged, so no
second conversation is ever created; the returned conversation is non-deleted;
and when no conversation matched the query, the call appended exactly one new
document whose participants are exactly the sorted pair, all active, with
zero-initialized unread counters for both users. -/
theorem findOrCreateDirect_order_independent_idempotent
    (s : ConvStore) (a b now now' : Nat) (hab : a ≠ b) :
    s.findOrCreateDirectConversation a b now = s.findOrCreateDirectConversation b a now
  ∧ (s.findOrCreateDirectConversation a b now).2.findOrCreateDirectConversation a b now'
      = s.findOrCreateDirectConversation a b now
  ∧ (s.findOrCreateDirectConversation a b now).2.findOrCreateDirectConversation b a now'
      = s.findOrCreateDirectConversation a b now
  ∧ (s.findOrCreateDirectConversation a b now).1.isDeleted = false
  ∧ (s.convs.find? (directQueryMatches (sortedPair a b)) = none →
        (s.findOrCreateDirectConversation a b now).2.convs
          = s.convs ++ [(s.findOrCreateDirectConversation a b now).1]
      ∧ ((s.findOrCreateDirectConversation a b now).1.participants.map (fun p => p.user))
          = sortedPair a b
      ∧ (∀ p ∈ (s.findOrCreateDirectConversation a b now).1.participants, p.isActive = true)
      ∧ ucGet (s.findOrCreateDirectConversation a b now).1.unreadCounts a
          = some UnreadEntry.zero
      ∧ ucGet (s.findOrCreateDirectConversation a b now).1.unreadCounts b
          = some UnreadEntry.zero) := by
  cases hfind : s.convs.find? (directQueryMatches (sortedPair a b)) with
  | some c =>
    have e1 := findOrCreateDirect_eq_found s a b now c hfind
    have hfind' : s.convs.find? (directQueryMatches (sortedPair b a)) = some c := by
      rw [← sortedPair_comm]; exact hfind
    have e2 := findOrCreateDirect_eq_found s b a now c hfind'
    have hdel : c.isDeleted = false := by
      have hc := List.find?_some hfind
      simp only [directQueryMatches, Bool.and_eq_true, Bool.not_eq_true'] at hc
      exact hc.2
    refine ⟨by rw [e1, e2], ?_, ?_, by rw [e1]; exact hdel, ?_⟩
    · rw [e1]
      exact findOrCreateDirect_eq_found s a b now' c hfind
    · rw [e1]
      exact findOrCreateDirect_eq_found s b a now' c hfind'
    · intro hnone
      simp at hnone
  | none =>
    have hfind' : s.convs.find? (directQueryMatches (sortedPair b a)) = none := by
      rw [← sortedPair_comm]; exact hfind
    have e1 := findOrCreateDirect_eq_created s a b now hfind
    have e2 := findOrCreateDirect_eq_created s b a now hfind'
    have hmatch : directQueryMatches (sortedPair a b)
        (preSave ((mkDirectConversation s.nextId (sortedPair a b) now).initializeUnreadCounts
          (sortedPair a b)) now) = true := by
      rcases sortedPair_cases a b with h | h <;> rw [h] <;> exact created_direct_matches ..
    have hfind2 : (s.insert ((mkDirectConversation s.nextId
          (sortedPair a b) now).initializeUnreadCounts (sortedPair a b)) now).convs.find?
          (directQueryMatches (sortedPair a b))
        = some (preSave ((mkDirectConversation s.nextId
            (sortedPair a b) now).initializeUnreadCounts (sortedPair a b)) now) := by
      show (s.convs ++ [_]).find? _ = _
      rw [find?_append_of_none _ _ _ hfind]
      simp [List.find?, hmatch]
    have hfind2' : (s.insert ((mkDirectConversation s.nextId
          (sortedPair a b) now).initializeUnreadCounts (sortedPair a b)) now).convs.find?
          (directQueryMatches (sortedPair b a))
        = some (preSave ((mkDirectConversation s.nextId
            (sortedPair a b) now).initializeUnreadCounts (sortedPair a b)) now) := by
      rw [← sortedPair_comm]; exact hfind2
    refine ⟨?_, ?_, ?_, ?_, ?_⟩
    · rw [e1, e2, sortedPair_comm a b]
    · rw [e1]
      exact findOrCreateDirect_eq_found _ a b now' _ hfind2
    · rw [e1]
      exact findOrCreateDirect_eq_found _ b a now' _ hfind2'
    · rw [e1]; rfl
    · intro _
      rw [e1]
      refine ⟨by simp [ConvStore.insert], created_direct_users s.nextId (sortedPair a b) now,
        created_direct_active s.nextId (sortedPair a b) now, ?_, ?_⟩
      · rcases sortedPair_cases a b with h | h <;> rw [h]
        · exact (created_direct_unread ..).1
        · exact (created_direct_unread ..).2
      · rcases sortedPair_cases a b with h | h <;> rw [h]
        · exact (created_direct_unread ..).2
        · exact (created_direct_unread ..).1

theorem findOrCreateDirect_witness :
    ucGet ((ConvStore.mk [] 0).findOrCreateDirectConversation 1 2 10).1.unreadCounts 1
      = some UnreadEntry.zero :=
  ((findOrCreateDirect_order_independent_idempotent ⟨[], 0⟩ 1 2 10 20
    (by decide)).2.2.2.2 (by decide)).2.2.2.1

/-- The count a user's `unreadCounts` entry is read as (absent entries read as
the zero default). -/
def ucCount (m : List (Nat × UnreadEntry)) (k : Nat) : Nat :=
  ((ucGet m k).getD UnreadEntry.zero).count

theorem getUnreadCount_eq_ucCount (c : Conversation) (u : Nat) :
    c.getUnreadCount u = ucCount c.unreadCounts u := by
  unfold Conversation.getUnreadCount ucCount
  cases h : ucGet c.unreadCounts u <;> simp [UnreadEntry.zero]

theorem foldl_unread_step_count (ps : List Participant)
    (m : List (Nat × UnreadEntry)) (senderId k : Nat) :
    ucCount (ps.foldl (fun m participant =>
        if participant.user != senderId && participant.isActive then
          let current := (ucGet m participant.user).getD UnreadEntry.zero
          ucSet m participant.user { current with count := current.count + 1 }
        else m) m) k
      = ucCount m k
        + (ps.filter (fun p => p.user == k && (p.user != senderId && p.isActive))).length := by
  induction ps generalizing m with
  | nil => simp
  | cons p rest ih =>
    simp only [List.foldl_cons, List.filter_cons]
    by_cases hq : (p.user != senderId && p.isActive) = true
    · rw [if_pos hq]
      by_cases hk : p.user = k
      · subst hk
        rw [ih]
        have hset : ucCount (ucSet m p.user
            { (ucGet m p.user).getD UnreadEntry.zero with
              count := ((ucGet m p.user).getD UnreadEntry.zero).count + 1 }) p.user
            = ucCount m p.user + 1 := by
          unfold ucCount
          rw [ucGet_set_self]
          rfl
        rw [hset]
        have hpred : (p.user == p.user && (p.user != senderId && p.isActive)) = true := by
          simp [hq]
        rw [if_pos hpred]
        simp [Nat.add_comm, Nat.add_assoc, Nat.add_left_comm]
      · rw [ih]
        have hset : ucCount (ucSet m p.user
            { (ucGet m p.user).getD UnreadEntry.zero with
              count := ((ucGet m p.user).getD UnreadEntry.zero).count + 1 }) k
            = ucCount m k := by
          unfold ucCount
          rw [ucGet_set_ne _ _ _ _ hk]
        rw [hset]
        have hpred : (p.user == k && (p.user != senderId && p.isActive)) = false := by
          simp [hk]
        rw [hpred]
        simp
    · rw [if_neg hq]
      rw [ih]
      have hpred : (p.user == k && (p.user != senderId && p.isActive)) = false := by
        rw [Bool.eq_false_iff]
        intro hcon
        exact hq (Bool.and_elim_right hcon)
      rw [hpred]
      simp

theorem filter_user_not_mem (ps : List Participant) (u : Nat) (q : Participant → Bool)
    (h : u ∉ ps.map (fun p => p.user)) :
    ps.filter (fun p => p.user == u && q p) = [] := by
  induction ps with
  | nil => rfl
  | cons p rest ih =>
    simp only [List.map_cons, List.mem_cons] at h
    push_neg at h
    simp only [List.filter_cons]
    have hf : (p.user == u && q p) = false := by
      simp [Ne.symm h.1]
    rw [hf]
    exact ih h.2

theorem filter_active_single (ps : List Participant) (p : Participant) (sid : Nat)
    (hnd : (ps.map (fun p => p.user)).Nodup) (hp : p ∈ ps)
    (hact : p.isActive = true) (hne : p.user ≠ sid) :
    (ps.filter (fun q => q.user == p.user && (q.user != sid && q.isActive))).length = 1 := by
  induction ps with
  | nil => cases hp
  | cons q rest ih =>
    simp only [List.map_cons, List.nodup_cons] at hnd
    rcases List.mem_cons.mp hp with rfl | hmem
    · simp only [List.filter_cons]
      have hq : (p.user == p.user && (p.user != sid && p.isActive)) = true := by
        simp [hact, hne]
      rw [hq]
      rw [filter_user_not_mem rest p.user _ hnd.1]
      rfl
    · have hqu : q.user ≠ p.user := by
        intro e
        exact hnd.1 (e ▸ List.mem_map.mpr ⟨p, hmem, rfl⟩)
      simp only [List.filter_cons]
      have hf : (q.user == p.user && (q.user != sid && q.isActive)) = false := by
        simp [hqu]
      rw [hf]
      exact ih hnd.2 hmem

theorem filter_sender_nil (ps : List Participant) (sid : Nat) :
    (ps.filter (fun q => q.user == sid && (q.user != sid && q.isActive))).length = 0 := by
  induction ps with
  | nil => rfl
  | cons q rest ih =>
    simp only [List.filter_cons]
    have hf : (q.user == sid && (q.user != sid && q.isActive)) = false := by
      by_cases h : q.user = sid <;> simp [h]
    rw [hf]
    exact ih

theorem updateLastMessage_getUnreadCount (c : Conversation) (mid sid now k : Nat) :
    (c.updateLastMessage mid sid now).getUnreadCount k
      = c.getUnreadCount k
        + (c.participants.filter
            (fun p => p.user == k && (p.user != sid && p.isActive))).length := by
  rw [getUnreadCount_eq_ucCount, getUnreadCount_eq_ucCount]
  exact foldl_unread_step_count c.participants c.unreadCounts sid k

/-- Iterated `updateLastMessage`: record a list of sends
`(messageId, senderId, now)` in order. (This is the statement-side iteration
of the source's single-send static, used to express the "after N sends"
property.) -/
def applySends (c : Conversation) (sends : List (Nat × Nat × Nat)) : Conversation :=
  sends.foldl (fun c e => c.updateLastMessage e.1 e.2.1 e.2.2) c

theorem updateLastMessage_participants (c : Conversation) (mid sid now : Nat) :
    (c.updateLastMessage mid sid now).participants = c.participants := rfl

theorem applySends_getUnreadCount (c : Conversation) (sends : List (Nat × Nat × Nat))
    (p : Participant) (hnd : (c.participants.map (fun p => p.user)).Nodup)
    (hp : p ∈ c.participants) (hact : p.isActive = true) :
    (applySends c sends).getUnreadCount p.user
      = c.getUnreadCount p.user + (sends.filter (fun e => e.2.1 != p.user)).length := by
  induction sends generalizing c with
  | nil => simp [applySends]
  | cons e rest ih =>
    show (applySends (c.updateLastMessage e.1 e.2.1 e.2.2) rest).getUnreadCount p.user = _
    rw [ih (c.updateLastMessage e.1 e.2.1 e.2.2) hnd hp]
    rw [updateLastMessage_getUnreadCount]
    simp only [List.filter_cons]
    by_cases hs : e.2.1 = p.user
    · have h0 : (c.participants.filter
          (fun q => q.user == p.user && (q.user != e.2.1 && q.isActive))).length = 0 := by
        rw [hs]
        exact filter_sender_nil c.participants p.user
      have hf : (e.2.1 != p.user) = false := by simp [hs]
      rw [h0, hf]
      simp
    · have h1 : (c.participants.filter
          (fun q => q.user == p.user && (q.user != e.2.1 && q.isActive))).length = 1 :=
        filter_active_single c.participants p e.2.1 hnd hp hact (fun h => hs h.symm)
      have hf : (e.2.1 != p.user) = true := by simp [hs]
      rw [h1, hf]
      simp only [if_true, List.length_cons]
      omega

/-- C2: after `updateLastMessage` records a message of sender `senderId` on a
conversation (with well-formed, duplicate-free participant entries), the
unread count of every ACTIVE participant other than the sender has grown by
exactly 1, the sender's own unread count is unchanged, `lastMessage` is the
new message id, `lastMessageAt` is the new timestamp, and
`stats.totalMessages` has grown by exactly 1; moreover, iterating sends over
the conversation leaves every active participant with an unread count equal
to its initial value plus exactly the number of messages sent by others. -/
theorem updateLastMessage_correct (c : Conversation) (messageId senderId now : Nat)
    (hnd : (c.participants.map (fun p => p.user)).Nodup) :
    (∀ p ∈ c.participants, p.isActive = true → p.user ≠ senderId →
        (c.updateLastMessage messageId senderId now).getUnreadCount p.user
          = c.getUnreadCount p.user + 1)
  ∧ (c.updateLastMessage messageId senderId now).getUnreadCount senderId
      = c.getUnreadCount senderId
  ∧ (c.updateLastMessage messageId senderId now).lastMessage = some messageId
  ∧ (c.updateLastMessage messageId senderId now).lastMessageAt = now
  ∧ (c.updateLastMessage messageId senderId now).stats.totalMessages
      = c.stats.totalMessages + 1
  ∧ (∀ (sends : List (Nat × Nat × Nat)), ∀ p ∈ c.participants, p.isActive = true →
      (applySends c sends).getUnreadCount p.user
        = c.getUnreadCount p.user + (sends.filter (fun e => e.2.1 != p.user)).length) := by
  refine ⟨?_, ?_, rfl, rfl, rfl, ?_⟩
  · intro p hp hact hne
    rw [updateLastMessage_getUnreadCount]
    rw [filter_active_single c.participants p senderId hnd hp hact hne]
  · rw [updateLastMessage_getUnreadCount]
    rw [filter_sender_nil c.participants senderId]
    rfl
  · intro sends p hp hact
    exact applySends_getUnreadCount c sends p hnd hp hact

theorem updateLastMessage_witness :
    ((Conversation.mk 7 [mkDirectParticipant 0 1, mkDirectParticipant 0 2]
        ConvType.individual ("") Privacy.private none 0 [] ⟨0, 2, 0⟩
        false).updateLastMessage 55 1 9).getUnreadCount 2
      = (Conversation.mk 7 [mkDirectParticipant 0 1, mkDirectParticipant 0 2]
          ConvType.individual ("") Privacy.private none 0 [] ⟨0, 2, 0⟩
          false).getUnreadCount 2 + 1 :=
  (updateLastMessage_correct _ 55 1 9 (by decide)).1
    (mkDirectParticipant 0 2) (by decide) (by decide) (by decide)

/-- C3: `markAsRead` zeroes `unreadCounts[userId]` (both `count` and
`mentionsCount`) and records the last-read pointer (the supplied message id,
falling back to the conversation's `lastMessage`). It is idempotent: after
the first call's document is saved (`preSave … t`), a second call leaves the
counters at zero, its saved document coincides with the saved document of a
single call made at the second call's time `t'`, and when the two calls carry
the same timestamp the second call's saved document is literally the first
call's saved document (a no-op). -/
theorem markAsRead_resets_and_idempotent (c : Conversation) (userId : Nat)
    (m : Option Nat) (t t' : Nat) :
    (c.markAsRead userId m t).getUnreadCount userId = 0
  ∧ (c.markAsRead userId m t).getMentionsCount userId = 0
  ∧ ((preSave (c.markAsRead userId m t) t).markAsRead userId m t').getUnreadCount userId = 0
  ∧ ((preSave (c.markAsRead userId m t) t).markAsRead userId m t').getMentionsCount userId = 0
  ∧ (ucGet (c.markAsRead userId m t).unreadCounts userId).map (fun e => e.lastReadMessageId)
      = some (match m with | some x => some x | none => c.lastMessage)
  ∧ preSave ((preSave (c.markAsRead userId m t) t).markAsRead userId m t') t'
      = preSave (c.markAsRead userId m t') t'
  ∧ (t' = t →
      preSave ((preSave (c.markAsRead userId m t) t).markAsRead userId m t') t'
        = preSave (c.markAsRead userId m t) t) := by
  refine ⟨?_, ?_, ?_, ?_, ?_, ?_, ?_⟩
  · simp [Conversation.markAsRead, Conversation.getUnreadCount]
  · simp [Conversation.markAsRead, Conversation.getMentionsCount]
  · simp [Conversation.markAsRead, preSave, Conversation.getUnreadCount]
  · simp [Conversation.markAsRead, preSave, Conversation.getMentionsCount]
  · cases m <;> simp [Conversation.markAsRead]
  · simp [Conversation.markAsRead, preSave, ucSet_set_self]
  · intro h
    subst h
    simp [Conversation.markAsRead, preSave, ucSet_set_self]

theorem markAsRead_witness :
    preSave ((preSave ((Conversation.mk 7 [mkDirectParticipant 0 1]
          ConvType.individual ("") Privacy.private (some 4) 0 [(1, ⟨3, 2, none, none⟩)]
          ⟨5, 1, 0⟩ false).markAsRead 1 none 6) 6).markAsRead 1 none 6) 6
      = preSave ((Conversation.mk 7 [mkDirectParticipant 0 1]
          ConvType.individual ("") Privacy.private (some 4) 0 [(1, ⟨3, 2, none, none⟩)]
          ⟨5, 1, 0⟩ false).markAsRead 1 none 6) 6 :=
  (markAsRead_resets_and_idempotent _ 1 none 6 6).2.2.2.2.2.2 rfl

theorem filter_len_zero_of_any_false {α : Type} (p : α → Bool) (l : List α)
    (h : l.any p = false) : (l.filter p).length = 0 := by
  induction l with
  | nil => rfl
  | cons x xs ih =>
    simp only [List.any_cons, Bool.or_eq_false_iff] at h
    simp only [List.filter_cons, h.1]
    exact ih h.2

theorem filter_len_pos_of_any_true {α : Type} (p : α → Bool) (l : List α)
    (h : l.any p = true) : 1 ≤ (l.filter p).length := by
  rcases List.any_eq_true.mp h with ⟨x, hx, hpx⟩
  have : x ∈ l.filter p := List.mem_filter.mpr ⟨hx, hpx⟩
  exact List.length_pos.mpr (List.ne_nil_of_mem this)

theorem markAsDelivered_already (msg : Message) (u t : Nat)
    (h : msg.deliveredTo.any (fun d => d.user == u) = true) :
    msg.markAsDelivered u t = msg := by
  rw [Message.markAsDelivered, if_pos h]

theorem markAsDelivered_new (msg : Message) (u t : Nat)
    (h : msg.deliveredTo.any (fun d => d.user == u) = false) :
    msg.markAsDelivered u t
      = { msg with deliveredTo := msg.deliveredTo ++ [{ user := u, deliveredAt := t }] } := by
  rw [Message.markAsDelivered, if_neg (by simp [h])]

theorem markAsRead_already (msg : Message) (u t : Nat)
    (h : msg.readBy.any (fun r => r.user == u) = true) :
    msg.markAsRead u t = msg := by
  rw [Message.markAsRead, if_pos h]

theorem markAsRead_new (msg : Message) (u t : Nat)
    (h : msg.readBy.any (fun r => r.user == u) = false) :
    msg.markAsRead u t
      = { msg with readBy := msg.readBy ++ [{ user := u, readAt := t }] } := by
  rw [Message.markAsRead, if_neg (by simp [h])]

theorem updateStatus_delivered_already (msg : Message) (st : MsgStatus) (u t : Nat)
    (hbr : (st == MsgStatus.delivered || st == MsgStatus.read) = true)
    (h : msg.deliveredTo.any (fun d => d.user == u) = true) :
    msg.updateStatus st u t = { msg with status := st } := by
  rw [Message.updateStatus]
  simp only [hbr, if_true, h]

theorem updateStatus_delivered_new (msg : Message) (st : MsgStatus) (u t : Nat)
    (hbr : (st == MsgStatus.delivered || st == MsgStatus.read) = true)
    (h : msg.deliveredTo.any (fun d => d.user == u) = false) :
    msg.updateStatus st u t
      = { msg with status := st
                   deliveredTo := msg.deliveredTo ++ [{ user := u, deliveredAt := t }] } := by
  rw [Message.updateStatus]
  simp only [hbr, if_true, h, Bool.false_eq_true, if_false]

/-- C4: duplicate receipts never duplicate entries or double-count. Starting
from a message holding at most one `deliveredTo` (resp. `readBy`) entry for a
user, applying `markAsDelivered` twice leaves exactly one `deliveredTo` entry
for that user; applying `markAsRead` twice leaves exactly one `readBy` entry
for that user; and applying `updateStatus` twice with the same
`delivered`/`read` status leaves exactly one `deliveredTo` entry for that
user (`updateStatus` records both signals in `deliveredTo`; its `readBy`
append sits in dead code). -/
theorem receipts_idempotent (msg : Message) (u t t' : Nat)
    (hd : msg.deliveredCount u ≤ 1) (hr : msg.readCount u ≤ 1) :
    ((msg.markAsDelivered u t).markAsDelivered u t').deliveredCount u = 1
  ∧ ((msg.markAsRead u t).markAsRead u t').readCount u = 1
  ∧ (∀ st, st = MsgStatus.delivered ∨ st = MsgStatus.read →
      ((msg.updateStatus st u t).updateStatus st u t').deliveredCount u = 1) := by
  refine ⟨?_, ?_, ?_⟩
  · by_cases h : msg.deliveredTo.any (fun d => d.user == u) = true
    · rw [markAsDelivered_already msg u t h, markAsDelivered_already msg u t' h]
      have := filter_len_pos_of_any_true _ _ h
      unfold Message.deliveredCount at hd ⊢
      omega
    · have hfalse := Bool.eq_false_iff.mpr h
      rw [markAsDelivered_new msg u t hfalse]
      have h0 := filter_len_zero_of_any_false _ _ hfalse
      have h2 : ((msg.deliveredTo ++ [({ user := u, deliveredAt := t } : DeliveredReceipt)]).any
          (fun d => d.user == u)) = true := by
        simp
      rw [markAsDelivered_already _ u t' h2]
      unfold Message.deliveredCount
      simp only [List.filter_append, List.length_append]
      rw [h0]
      simp
  · by_cases h : msg.readBy.any (fun r => r.user == u) = true
    · rw [markAsRead_already msg u t h, markAsRead_already msg u t' h]
      have := filter_len_pos_of_any_true _ _ h
      unfold Message.readCount at hr ⊢
      omega
    · have hfalse := Bool.eq_false_iff.mpr h
      rw [markAsRead_new msg u t hfalse]
      have h0 := filter_len_zero_of_any_false _ _ hfalse
      have h2 : ((msg.readBy ++ [({ user := u, readAt := t } : ReadReceipt)]).any
          (fun r => r.user == u)) = true := by
        simp
      rw [markAsRead_already _ u t' h2]
      unfold Message.readCount
      simp only [List.filter_append, List.length_append]
      rw [h0]
      simp
  · intro st hst
    have hbr : (st == MsgStatus.delivered || st == MsgStatus.read) = true := by
      rcases hst with rfl | rfl <;> rfl
    by_cases h : msg.deliveredTo.any (fun d => d.user == u) = true
    · rw [updateStatus_delivered_already msg st u t hbr h]
      rw [updateStatus_delivered_already { msg with status := st } st u t' hbr h]
      show msg.deliveredCount u = 1
      have := filter_len_pos_of_any_true _ _ h
      unfold Message.deliveredCount at hd ⊢
      omega
    · have hfalse := Bool.eq_false_iff.mpr h
      rw [updateStatus_delivered_new msg st u t hbr hfalse]
      have h0 := filter_len_zero_of_any_false _ _ hfalse
      have h2 : ((msg.deliveredTo ++ [({ user := u, deliveredAt := t } : DeliveredReceipt)]).any
          (fun d => d.user == u)) = true := by
        simp
      rw [updateStatus_delivered_already
        { msg with status := st
                   deliveredTo := msg.deliveredTo ++ [{ user := u, deliveredAt := t }] }
        st u t' hbr h2]
      show (({ msg with
          deliveredTo := msg.deliveredTo
            ++ [({ user := u, deliveredAt := t } : DeliveredReceipt)] } : Message)).deliveredCount
        u = 1
      unfold Message.deliveredCount
      simp only [List.filter_append, List.length_append]
      rw [h0]
      simp

theorem receipts_idempotent_witness :
    (((Message.mk 1 2 3 "hi" 0 MsgStatus.sent [] [] false [] none
        none).markAsDelivered 4 5).markAsDelivered 4 6).deliveredCount 4 = 1 :=
  (receipts_idempotent (Message.mk 1 2 3 "hi" 0 MsgStatus.sent [] [] false [] none none)
    4 5 6 (by decide) (by decide)).1

/-- C5 counterexample: the stored `status` scalar DOES regress. A message
whose status is already `read` is moved back to `sent` by
`updateStatus(..., "sent", ...)`, although `sent` ranks strictly below `read`
in the claimed forward order — the stored status is not the maximum reached
so far. -/
theorem updateStatus_regresses :
    ((Message.mk 1 2 3 "hi" 0 MsgStatus.read [] [] false [] none
        none).updateStatus MsgStatus.sent 4 5).status = MsgStatus.sent
  ∧ MsgStatus.rank MsgStatus.sent < MsgStatus.rank MsgStatus.read := by
  constructor
  · rfl
  · decide

/-- C5 amended: `updateStatus` assigns the scalar `status` field
unconditionally, so after any call the stored status equals the LAST status
applied (not the maximum reached so far), and out-of-order delivery/read
signals can move it backward. -/
theorem updateStatus_sets_status_unconditionally (msg : Message) (st : MsgStatus)
    (u t : Nat) : (msg.updateStatus st u t).status = st := by
  rw [Message.updateStatus]
  split
  · split <;> rfl
  · split
    · split <;> rfl
    · rfl

/-- C6: behaviour of the delete path. If the message is absent, every call
fails with "Message not found". If it is found: a non-sender is always
rejected; the sender's `forEveryone` delete fails with the expiry error
exactly when the message is older than 10 minutes (`now − createdAt >
600000` ms) and otherwise succeeds, soft-deleting the message globally; the
sender's `forMe` delete succeeds and only adds the caller to `deletedFor`
(`$addToSet`), leaving membership of every other viewer — hence their
visibility — unchanged; and any successful call implies the caller is the
sender and, for `forEveryone`, that the message was at most 10 minutes old. -/
theorem handleMessageDelete_correct (msgs : List Message) (messageId userId now : Nat) :
    (msgs.find? (fun m => m.id == messageId) = none →
      ∀ scope, handleMessageDelete msgs messageId userId scope now
        = Except.error DeleteMessageError.messageNotFound)
  ∧ (∀ m, msgs.find? (fun m => m.id == messageId) = some m →
      (m.sender ≠ userId → ∀ scope,
          handleMessageDelete msgs messageId userId scope now
            = Except.error DeleteMessageError.notSender)
    ∧ (m.sender = userId → now - m.createdAt > deleteForEveryoneTimeLimit →
          handleMessageDelete msgs messageId userId DeleteScope.everyone now
            = Except.error DeleteMessageError.expired)
    ∧ (m.sender = userId → now - m.createdAt ≤ deleteForEveryoneTimeLimit →
          handleMessageDelete msgs messageId userId DeleteScope.everyone now
            = Except.ok { m with
                isDeleted := true
                deletedAt := some now
                deletedBy := some userId })
    ∧ (m.sender = userId →
          handleMessageDelete msgs messageId userId DeleteScope.me now
            = Except.ok { m with deletedFor :=
                if m.deletedFor.contains userId then m.deletedFor
                else m.deletedFor ++ [userId] })
    ∧ (m.sender = userId → ∀ v, v ≠ userId →
        ∀ m', handleMessageDelete msgs messageId userId DeleteScope.me now = Except.ok m' →
          (v ∈ m'.deletedFor ↔ v ∈ m.deletedFor))
    ∧ (∀ scope m', handleMessageDelete msgs messageId userId scope now = Except.ok m' →
        m.sender = userId
        ∧ (scope = DeleteScope.everyone →
            now - m.createdAt ≤ deleteForEveryoneTimeLimit))) := by
  constructor
  · intro hfind scope
    rw [handleMessageDelete, hfind]
  · intro m hfind
    have hbase : ∀ scope, handleMessageDelete msgs messageId userId scope now
        = (if m.sender != userId then Except.error DeleteMessageError.notSender
           else match scope with
           | DeleteScope.everyone =>
             if now - m.createdAt > deleteForEveryoneTimeLimit then
               Except.error DeleteMessageError.expired
             else Except.ok { m with
               isDeleted := true
               deletedAt := some now
               deletedBy := some userId }
           | DeleteScope.me =>
             Except.ok { m with deletedFor :=
               if m.deletedFor.contains userId then m.deletedFor
               else m.deletedFor ++ [userId] }) := by
      intro scope
      rw [handleMessageDelete, hfind]
    refine ⟨?_, ?_, ?_, ?_, ?_, ?_⟩
    · intro hne scope
      rw [hbase scope]
      have : (m.sender != userId) = true := by simp [hne]
      rw [if_pos this]
    · intro hs hexp
      rw [hbase DeleteScope.everyone]
      have hsf : (m.sender != userId) = false := by simp [hs]
      rw [hsf]
      simp only [Bool.false_eq_true, if_false]
      rw [if_pos hexp]
    · intro hs hok
      rw [hbase DeleteScope.everyone]
      have hsf : (m.sender != userId) = false := by simp [hs]
      rw [hsf]
      simp only [Bool.false_eq_true, if_false]
      rw [if_neg (by omega)]
    · intro hs
      rw [hbase DeleteScope.me]
      have hsf : (m.sender != userId) = false := by simp [hs]
      rw [hsf]
      simp only [Bool.false_eq_true, if_false]
    · intro hs v hv m' hok
      rw [hbase DeleteScope.me] at hok
      have hsf : (m.sender != userId) = false := by simp [hs]
      rw [hsf] at hok
      simp only [Bool.false_eq_true, if_false, Except.ok.injEq] at hok
      subst hok
      by_cases hc : userId ∈ m.deletedFor
      · simp [hc]
      · simp [hc, hv]
    · intro scope m' hok
      rw [hbase scope] at hok
      by_cases hs : m.sender = userId
      · refine ⟨hs, ?_⟩
        intro hscope
        subst hscope
        have hsf : (m.sender != userId) = false := by simp [hs]
        rw [hsf] at hok
        simp only [Bool.false_eq_true, if_false] at hok
        by_cases hexp : now - m.createdAt > deleteForEveryoneTimeLimit
        · rw [if_pos hexp] at hok
          cases hok
        · omega
      · have : (m.sender != userId) = true := by simp [hs]
        rw [this, if_pos rfl] at hok
        cases hok

theorem handleMessageDelete_witness :
    handleMessageDelete
        [Message.mk 1 2 3 "hi" 0 MsgStatus.sent [] [] false [] none none]
        1 3 DeleteScope.everyone 660000
      = Except.error DeleteMessageError.expired :=
  ((handleMessageDelete_correct
      [Message.mk 1 2 3 "hi" 0 MsgStatus.sent [] [] false [] none none] 1 3 660000).2
    (Message.mk 1 2 3 "hi" 0 MsgStatus.sent [] [] false [] none none)
    (by decide)).2.1 rfl (by decide)

/-- C7 counterexample: removing the sole admin does NOT transfer the admin
role and does NOT delete the conversation. In a group with admin `10` and
member `20`, the sole admin's self-removal succeeds and afterwards the
conversation has 0 active admins, is not deleted, and still has 1 active
(non-admin) participant — contradicting "exactly one active participant holds
the admin role afterwards". -/
theorem removeParticipant_sole_admin_counterexample :
    ((ConvStore.removeParticipant
        ⟨[Conversation.mk 1 [mkGroupParticipant 0 10 10, mkGroupParticipant 0 10 20]
            ConvType.group ("g") Privacy.public none 0 [] ⟨0, 2, 0⟩ false], 2⟩
        1 10 10 5).toOption.map (fun r =>
          ((r.1.participants.filter (fun p => p.role == Role.admin && p.isActive)).length,
           r.1.isDeleted,
           (r.1.participants.filter (fun p => p.isActive)).length)))
      = some (0, false, 1) := by
  decide

theorem filter_admin_add_ne_user (ps : List Participant) (pid : Nat)
    (h : pid ∉ ps.map (fun p => p.user)) :
    ps.filter (fun p => p.role == Role.admin && p.isActive && p.user != pid)
      = ps.filter (fun p => p.role == Role.admin && p.isActive) := by
  induction ps with
  | nil => rfl
  | cons q rest ih =>
    simp only [List.map_cons, List.mem_cons] at h
    push_neg at h
    have hq : q.user ≠ pid := Ne.symm h.1
    simp only [List.filter_cons]
    have ht : (q.user != pid) = true := by simp [hq]
    have he : (q.role == Role.admin && q.isActive && q.user != pid)
        = (q.role == Role.admin && q.isActive) := by
      simp [ht]
    rw [he, ih h.2]

theorem deactivateFirst_admin_filter (ps : List Participant) (pid now : Nat)
    (hnd : (ps.map (fun p => p.user)).Nodup) :
    ((deactivateFirst ps pid now).filter
        (fun p => p.role == Role.admin && p.isActive)).length
      = (ps.filter (fun p => p.role == Role.admin && p.isActive && p.user != pid)).length := by
  induction ps with
  | nil => rfl
  | cons q rest ih =>
    simp only [List.map_cons, List.nodup_cons] at hnd
    simp only [deactivateFirst]
    by_cases hq : q.user = pid
    · rw [if_pos (by simp [hq])]
      simp only [List.filter_cons]
      have h1 : (({ q with isActive := false, leftAt := some now } : Participant).role
          == Role.admin
          && ({ q with isActive := false, leftAt := some now } : Participant).isActive)
          = false := by
        simp
      have h2 : (q.role == Role.admin && q.isActive && q.user != pid) = false := by
        simp [hq]
      rw [h1, h2]
      simp only [Bool.false_eq_true, if_false]
      rw [filter_admin_add_ne_user rest pid (hq ▸ hnd.1)]
    · rw [if_neg (by simp [hq])]
      simp only [List.filter_cons]
      have ht : (q.user != pid) = true := by simp [hq]
      have he : (q.role == Role.admin && q.isActive && q.user != pid)
          = (q.role == Role.admin && q.isActive) := by
        simp [ht]
      rw [he]
      cases hqq : (q.role == Role.admin && q.isActive) <;>
        simp [hqq, ih hnd.2]

/-- C7 amended: a successful `removeParticipant` only deactivates the (first)
participant entry of the target user — it transfers no admin role and deletes
no conversation. The saved document's `isDeleted` flag equals the fetched
one's, and the active admins afterwards are exactly the original active
admins OTHER than the removed user; removing the sole admin therefore leaves
the group with zero active admins (whether or not other active participants
remain), and the conversation continues to exist. -/
theorem removeParticipant_only_deactivates (s : ConvStore) (cid pid rid now : Nat)
    (c r : Conversation) (s' : ConvStore)
    (hnd : (c.participants.map (fun p => p.user)).Nodup)
    (hfind : s.findById cid = some c)
    (hok : s.removeParticipant cid pid rid now = Except.ok (r, s')) :
    r = preSave { c with participants := deactivateFirst c.participants pid now } now
  ∧ r.isDeleted = c.isDeleted
  ∧ (r.participants.filter (fun p => p.role == Role.admin && p.isActive)).length
      = (c.participants.filter
          (fun p => p.role == Role.admin && p.isActive && p.user != pid)).length := by
  rw [ConvStore.removeParticipant, hfind] at hok
  dsimp only at hok
  by_cases h1 : (c.type == ConvType.direct) = true
  · rw [if_pos h1] at hok
    cases hok
  · rw [if_neg h1] at hok
    by_cases h2 : (rid != pid && !c.isAdmin rid
        && !((c.participants.find? (fun p => p.user == rid)).elim
              false (fun p => p.permissions.canRemoveMembers))) = true
    · rw [if_pos h2] at hok
      cases hok
    · rw [if_neg h2] at hok
      by_cases h3 : (!(c.participants.any (fun p => p.user == pid))) = true
      · rw [if_pos h3] at hok
        cases hok
      · rw [if_neg h3] at hok
        simp only [Except.ok.injEq, Prod.mk.injEq] at hok
        obtain ⟨hr, hs'⟩ := hok
        subst hr
        refine ⟨rfl, rfl, ?_⟩
        show ((deactivateFirst c.participants pid now).filter
            (fun p => p.role == Role.admin && p.isActive)).length = _
        exact deactivateFirst_admin_filter c.participants pid now hnd

/-- Example group: sole admin `10`, one further member `20`. -/
def exGroupConv : Conversation :=
  Conversation.mk 1 [mkGroupParticipant 0 10 10, mkGroupParticipant 0 10 20]
    ConvType.group ("g") Privacy.public none 0 [] ⟨0, 2, 0⟩ false

theorem removeParticipant_only_deactivates_witness :
    (preSave { exGroupConv with
        participants := deactivateFirst exGroupConv.participants 10 5 } 5).isDeleted
      = exGroupConv.isDeleted :=
  (removeParticipant_only_deactivates ⟨[exGroupConv], 2⟩ 1 10 10 5 exGroupConv
    (preSave { exGroupConv with
        participants := deactivateFirst exGroupConv.participants 10 5 } 5)
    (ConvStore.save ⟨[exGroupConv], 2⟩
      { exGroupConv with
        participants := deactivateFirst exGroupConv.participants 10 5 } 5)
    (by decide) (by rfl) (by rfl)).2.1

/-- C8 counterexample: a conversation returned by
`findOrCreateDirectConversation` has type `"individual"`, not `"direct"`, so
`addParticipants` on it does NOT fail with the `InvalidOperation` ("Cannot add
participants to direct conversations") error the claim predicts — it fails
with the permission error instead. -/
theorem addParticipants_on_findOrCreateDirect_not_invalidOperation :
    ConvStore.addParticipants
        ((ConvStore.findOrCreateDirectConversation ⟨[], 0⟩ 1 2 0).2)
        ((ConvStore.findOrCreateDirectConversation ⟨[], 0⟩ 1 2 0).1.id) [3] 1 5
      = Except.error AddParticipantsError.noPermissionToAdd
  ∧ AddParticipantsError.noPermissionToAdd ≠ AddParticipantsError.cannotAddToDirect := by
  constructor
  · rfl
  · decide

theorem mkDirect_no_admin (l : List Nat) (now u : Nat) :
    ((l.map (mkDirectParticipant now)).any
      (fun p => p.user == u && p.role == Role.admin && p.isActive)) = false := by
  induction l with
  | nil => rfl
  | cons v rest ih =>
    simp only [List.map_cons, List.any_cons, ih, Bool.or_false]
    simp [mkDirectParticipant]

theorem mkDirect_no_canAddMembers (l : List Nat) (now u : Nat) :
    (((l.map (mkDirectParticipant now)).find? (fun p => p.user == u)).elim
      false (fun p => p.permissions.canAddMembers)) = false := by
  induction l with
  | nil => rfl
  | cons v rest ih =>
    simp only [List.map_cons, List.find?]
    by_cases hv : ((mkDirectParticipant now v).user == u) = true
    · rw [hv]
      rfl
    · rw [Bool.eq_false_iff.mpr hv]
      exact ih

/-- C8 amended: `addParticipants` fails with "Conversation not found" when the
conversation is absent and with "Cannot add participants to direct
conversations" when the stored conversation's type is the literal `direct`.
Conversations returned by `findOrCreateDirectConversation`, however, are
created with type `individual`, every participant a plain `member` without
`canAddMembers`; on such a conversation the direct-type guard never fires and
`addParticipants` instead always fails with the permission error. -/
theorem addParticipants_error_cases (s : ConvStore) (cid : Nat) (ids : List Nat)
    (addedBy now : Nat) :
    (s.findById cid = none →
      s.addParticipants cid ids addedBy now
        = Except.error AddParticipantsError.conversationNotFound)
  ∧ (∀ c, s.findById cid = some c → c.type = ConvType.direct →
      s.addParticipants cid ids addedBy now
        = Except.error AddParticipantsError.cannotAddToDirect)
  ∧ (∀ c, s.findById cid = some c → c.type ≠ ConvType.direct →
      c.isAdmin addedBy = false →
      ((c.participants.find? (fun p => p.user == addedBy)).elim
        false (fun p => p.permissions.canAddMembers)) = false →
      s.addParticipants cid ids addedBy now
        = Except.error AddParticipantsError.noPermissionToAdd)
  ∧ (∀ a b now0, s.convs.find? (directQueryMatches (sortedPair a b)) = none →
      (s.findOrCreateDirectConversation a b now0).1.type = ConvType.individual
    ∧ (s.findOrCreateDirectConversation a b now0).1.isAdmin addedBy = false
    ∧ (((s.findOrCreateDirectConversation a b now0).1.participants.find?
        (fun p => p.user == addedBy)).elim
          false (fun p => p.permissions.canAddMembers)) = false) := by
  refine ⟨?_, ?_, ?_, ?_⟩
  · intro hfind
    rw [ConvStore.addParticipants, hfind]
  · intro c hfind htype
    rw [ConvStore.addParticipants, hfind]
    dsimp only
    rw [if_pos (by simp [htype])]
  · intro c hfind htype hadmin hperm
    rw [ConvStore.addParticipants, hfind]
    dsimp only
    rw [if_neg (by simp [htype])]
    rw [if_pos (by simp [hadmin, hperm])]
  · intro a b now0 hnone
    rw [findOrCreateDirect_eq_created s a b now0 hnone]
    refine ⟨rfl, ?_, ?_⟩
    · show ((sortedPair a b).map (mkDirectParticipant now0)).any _ = false
      exact mkDirect_no_admin (sortedPair a b) now0 addedBy
    · show (((sortedPair a b).map (mkDirectParticipant now0)).find? _).elim false _ = false
      exact mkDirect_no_canAddMembers (sortedPair a b) now0 addedBy

theorem addParticipants_error_cases_witness :
    ConvStore.addParticipants ⟨[], 0⟩ 5 [1] 2 0
      = Except.error AddParticipantsError.conversationNotFound :=
  (addParticipants_error_cases ⟨[], 0⟩ 5 [1] 2 0).1 (by rfl)

/-- C9 counterexample: `createGroupConversation` succeeds with only ONE
participant other than the creator. With `participantIds = [1, 2]` and
creator/admin `1` the call succeeds, although the list of non-creator
participants has length 1 < 2 — contradicting "succeeds only when given at
least 2 participants other than the creator" (the source merely checks
`participantIds.length >= 2`, creator included). -/
theorem createGroup_one_other_succeeds :
    (ConvStore.createGroupConversation ⟨[], 0⟩ [1, 2] "g" 1 0).toOption.isSome = true
  ∧ ([1, 2].filter (fun i => i != 1)).length = 1 := by
  constructor
  · rfl
  · decide

theorem count_eq_one_of_nodup_mem (l : List Nat) (a : Nat) (hnd : l.Nodup) (ha : a ∈ l) :
    (l.filter (fun x => x == a)).length = 1 := by
  induction l with
  | nil => cases ha
  | cons x rest ih =>
    simp only [List.nodup_cons] at hnd
    simp only [List.filter_cons]
    rcases List.mem_cons.mp ha with rfl | hmem
    · rw [if_pos (by simp)]
      have : rest.filter (fun y => y == a) = [] := by
        apply List.filter_eq_nil_iff.mpr
        intro y hy
        simp only [beq_iff_eq]
        intro e
        exact hnd.1 (e ▸ hy)
      rw [this]
      rfl
    · have hxa : x ≠ a := by
        intro e
        exact hnd.1 (e ▸ hmem)
      rw [if_neg (by simp [hxa])]
      exact ih hnd.2 hmem

theorem groupParticipants_admin_count (ids : List Nat) (adminId now : Nat) :
    ((ids.map (mkGroupParticipant now adminId)).filter
        (fun p => p.role == Role.admin)).length
      = (ids.filter (fun u => u == adminId)).length := by
  induction ids with
  | nil => rfl
  | cons u rest ih =>
    simp only [List.map_cons, List.filter_cons]
    cases hu : (u == adminId) <;>
      simp only [mkGroupParticipant, hu] <;>
      simp [hu, ih]

theorem initFold_preserves (ids : List Nat) (m : List (Nat × UnreadEntry)) (u : Nat)
    (e : UnreadEntry) (h : ucGet m u = some e) :
    ucGet (ids.foldl (fun m userId =>
      match ucGet m userId with
      | some _ => m
      | none => ucSet m userId UnreadEntry.zero) m) u = some e := by
  induction ids generalizing m with
  | nil => exact h
  | cons v rest ih =>
    simp only [List.foldl_cons]
    cases hv : ucGet m v with
    | some _ =>
      simp only [hv]
      exact ih m h
    | none =>
      simp only [hv]
      have hvu : v ≠ u := by
        intro e'
        rw [e'] at hv
        rw [hv] at h
        cases h
      apply ih
      rw [ucGet_set_ne _ _ _ _ hvu]
      exact h

theorem initFold_get (ids : List Nat) (m : List (Nat × UnreadEntry)) (u : Nat)
    (hu : u ∈ ids) :
    ucGet (ids.foldl (fun m userId =>
      match ucGet m userId with
      | some _ => m
      | none => ucSet m userId UnreadEntry.zero) m) u
      = some ((ucGet m u).getD UnreadEntry.zero) := by
  induction ids generalizing m with
  | nil => cases hu
  | cons v rest ih =>
    simp only [List.foldl_cons]
    by_cases hvu : v = u
    · subst hvu
      cases hv : ucGet m v with
      | some e =>
        simp only [hv]
        exact initFold_preserves rest m v e hv
      | none =>
        simp only [hv, Option.getD_none]
        exact initFold_preserves rest _ v UnreadEntry.zero (ucGet_set_self m v UnreadEntry.zero)
    · have hmem : u ∈ rest := by
        rcases List.mem_cons.mp hu with e | hmem
        · exact absurd e.symm hvu
        · exact hmem
      cases hv : ucGet m v with
      | some e =>
        simp only [hv]
        exact ih m hmem
      | none =>
        simp only [hv]
        rw [ih _ hmem, ucGet_set_ne _ _ _ _ hvu]

/-- C9 amended: `createGroupConversation` succeeds exactly when it is given at
least 2 participants INCLUDING the creator (so one other participant
suffices), the creator is among the participants, and the name is non-empty
(enforced by the schema's `required` validator, which rejects empty strings);
on success the creator is the sole admin with full management permissions,
every other participant is a plain member, and every participant's unread
counters are zero-initialized. -/
theorem createGroupConversation_correct (s : ConvStore) (ids : List Nat)
    (name : String) (adminId now : Nat) (hnd : ids.Nodup) :
    (ids.length < 2 →
      s.createGroupConversation ids name adminId now
        = Except.error CreateGroupError.atLeastTwoParticipants)
  ∧ (¬ ids.length < 2 → adminId ∉ ids →
      s.createGroupConversation ids name adminId now
        = Except.error CreateGroupError.adminMustBeParticipant)
  ∧ (¬ ids.length < 2 → adminId ∈ ids → name = "" →
      s.createGroupConversation ids name adminId now
        = Except.error CreateGroupError.nameRequired)
  ∧ (∀ c s', s.createGroupConversation ids name adminId now = Except.ok (c, s') →
      c.type = ConvType.group
    ∧ c.name = name
    ∧ 2 ≤ ids.length ∧ adminId ∈ ids ∧ name ≠ ""
    ∧ (c.participants.filter (fun p => p.role == Role.admin)).length = 1
    ∧ (∀ p ∈ c.participants, p.user = adminId →
        p.role = Role.admin
        ∧ p.permissions = Permissions.mk true true true true true true)
    ∧ (∀ p ∈ c.participants, p.user ≠ adminId →
        p.role = Role.member ∧ p.permissions.canAddMembers = false)
    ∧ (∀ u ∈ ids, ucGet c.unreadCounts u = some UnreadEntry.zero)) := by
  refine ⟨?_, ?_, ?_, ?_⟩
  · intro h
    rw [ConvStore.createGroupConversation, if_pos h]
  · intro h1 h2
    rw [ConvStore.createGroupConversation, if_neg h1, if_pos (by simp [h2])]
  · intro h1 h2 h3
    rw [ConvStore.createGroupConversation, if_neg h1, if_neg (by simp [h2]),
      if_pos (by simp [h3])]
  · intro c s' hok
    rw [ConvStore.createGroupConversation] at hok
    by_cases h1 : ids.length < 2
    · rw [if_pos h1] at hok
      cases hok
    · rw [if_neg h1] at hok
      by_cases h2 : (!(ids.contains adminId)) = true
      · rw [if_pos h2] at hok
        cases hok
      · rw [if_neg h2] at hok
        have hmem : adminId ∈ ids := by
          by_contra hmemn
          exact h2 (by simp [hmemn])
        by_cases h3 : (name == "") = true
        · rw [if_pos h3] at hok
          cases hok
        · rw [if_neg h3] at hok
          simp only [Except.ok.injEq, Prod.mk.injEq] at hok
          obtain ⟨hc, hs'⟩ := hok
          subst hc
          have hpart : (preSave ((mkGroupConversation s.nextId ids name adminId
              now).initializeUnreadCounts ids) now).participants
              = ids.map (mkGroupParticipant now adminId) := rfl
          refine ⟨rfl, rfl, by omega, hmem, by simpa using h3, ?_, ?_, ?_, ?_⟩
          · rw [hpart, groupParticipants_admin_count ids adminId now]
            exact count_eq_one_of_nodup_mem ids adminId hnd hmem
          · intro p hp hpu
            rw [hpart] at hp
            rcases List.mem_map.mp hp with ⟨u, hu, rfl⟩
            have : u = adminId := hpu
            subst this
            constructor
            · simp [mkGroupParticipant]
            · simp [mkGroupParticipant]
          · intro p hp hpu
            rw [hpart] at hp
            rcases List.mem_map.mp hp with ⟨u, hu, rfl⟩
            have hune : u ≠ adminId := hpu
            constructor
            · simp [mkGroupParticipant, hune]
            · simp [mkGroupParticipant, hune]
          · intro u hu
            show ucGet (ids.foldl _ ([] : List (Nat × UnreadEntry))) u = _
            rw [initFold_get ids [] u hu]
            rfl

theorem createGroupConversation_witness :
    ConvStore.createGroupConversation ⟨[], 0⟩ [1] "g" 1 0
      = Except.error CreateGroupError.atLeastTwoParticipants :=
  (createGroupConversation_correct ⟨[], 0⟩ [1] "g" 1 0 (by decide)).1 (by decide)

/-- C10: `updateMentionsCount` can never increment any counter. When the
conversation is absent it throws "Conversation not found"; when it is found,
the line `if (!conversation.isParticipant(userId))` dereferences the unbound
identifier `userId` and throws a `ReferenceError` BEFORE the increment loop
and before any `save()` — so every invocation fails, and no participant's
`mentionsCount` (nor anything else in the stored conversation) is ever
changed by it. -/
theorem updateMentionsCount_always_fails (s : ConvStore) (cid : Nat) (ids : List Nat) :
    (s.findById cid = none →
      s.updateMentionsCount cid ids = Except.error MentionsError.conversationNotFound)
  ∧ (∀ c, s.findById cid = some c →
      s.updateMentionsCount cid ids = Except.error MentionsError.referenceErrorUserId)
  ∧ (s.updateMentionsCount cid ids).toOption = none := by
  refine ⟨?_, ?_, ?_⟩
  · intro h
    rw [ConvStore.updateMentionsCount, h]
  · intro c h
    rw [ConvStore.updateMentionsCount, h]
  · rw [ConvStore.updateMentionsCount]
    cases s.findById cid <;> rfl

theorem updateMentionsCount_witness :
    ConvStore.updateMentionsCount ⟨[], 0⟩ 1 [2]
      = Except.error MentionsError.conversationNotFound :=
  (updateMentionsCount_always_fails ⟨[], 0⟩ 1 [2]).1 (by rfl)
